import Mathlib

/-!
Verification of the `linky_month.py` export pipeline.

The Python program turns one nested API response
`\x7b graphe: \x7b data, periode.dateDebut, decalage \x7d \x7d` into flat JSON
exports at four time granularities.  This file gives a shallow embedding of
the program: calendar dates with `dateutil.relativedelta`-style arithmetic,
`strptime`/`strftime` for the concrete patterns the program uses, the axis
generators, the record-pairing loop, the four exporters, and the `main`
pipeline driver, together with theorems about them.
-/

namespace Linky

/-- Proleptic Gregorian calendar date, mirroring Python `datetime.date`
(year is unbounded here; the program only ever builds dates reachable from a
parsed 4-digit year). -/
structure Date where
  year : Int
  month : Nat
  day : Nat
deriving DecidableEq, Repr

/-- Leap-year test, as in Python `calendar.isleap`. -/
def isLeap (y : Int) : Bool :=
  y % 4 == 0 && (y % 100 != 0 || y % 400 == 0)

/-- Number of days in a month, as in Python `calendar.monthrange(y, m)[1]`
(used by `relativedelta` to clamp the day of month). -/
def daysInMonth (y : Int) (m : Nat) : Nat :=
  if m = 2 then (if isLeap y then 29 else 28)
  else if m = 4 ∨ m = 6 ∨ m = 9 ∨ m = 11 then 30
  else 31

/-- A date is valid when its month and day are in calendar range; this is the
invariant Python `datetime.date` maintains by construction. -/
def Date.Valid (d : Date) : Prop :=
  1 ≤ d.month ∧ d.month ≤ 12 ∧ 1 ≤ d.day ∧ d.day ≤ daysInMonth d.year d.month

instance (d : Date) : Decidable d.Valid := by
  unfold Date.Valid; infer_instance

/-- Step one day forward (the successor date). -/
def succDay (d : Date) : Date :=
  if d.day < daysInMonth d.year d.month then ⟨d.year, d.month, d.day + 1⟩
  else if d.month < 12 then ⟨d.year, d.month + 1, 1⟩
  else ⟨d.year + 1, 1, 1⟩

/-- Step one day backward (the predecessor date). -/
def predDay (d : Date) : Date :=
  if 1 < d.day then ⟨d.year, d.month, d.day - 1⟩
  else if 1 < d.month then ⟨d.year, d.month - 1, daysInMonth d.year (d.month - 1)⟩
  else ⟨d.year - 1, 12, 31⟩

/-- Shift a date by `k` days, as Python `date + timedelta(days=k)` /
`relativedelta(days=k)` does. -/
def addDays (d : Date) : Int → Date
  | Int.ofNat n => succDay^[n] d
  | Int.negSucc n => predDay^[n + 1] d

/-- Shift a date by `k` calendar months with day-of-month clamping, as
`dateutil.relativedelta(months=k)` does: month arithmetic carries into the
year, and the day is clamped to the length of the target month. -/
def addMonths (d : Date) (k : Int) : Date :=
  let t : Int := d.year * 12 + ((d.month : Int) - 1) + k
  let y := t / 12
  let m := (t % 12).toNat + 1
  ⟨y, m, min d.day (daysInMonth y m)⟩

/-- Shift a date by `k` calendar years with day-of-month clamping, as
`dateutil.relativedelta(years=k)` does. -/
def addYears (d : Date) (k : Int) : Date :=
  ⟨d.year + k, d.month, min d.day (daysInMonth (d.year + k) d.month)⟩

/-- A date together with a time of day in minutes (0 ≤ minuteOfDay < 1440).
`relativedelta` promotes a `date` to a midnight `datetime` when it carries
time components, which is what the half-hour granularity exercises. -/
structure DT where
  date : Date
  minuteOfDay : Nat
deriving DecidableEq, Repr

/-- Step one minute forward, rolling over at midnight. -/
def succMin (dt : DT) : DT :=
  if dt.minuteOfDay + 1 < 1440 then ⟨dt.date, dt.minuteOfDay + 1⟩
  else ⟨succDay dt.date, 0⟩

/-- Step one minute backward, rolling over at midnight. -/
def predMin (dt : DT) : DT :=
  if 1 ≤ dt.minuteOfDay then ⟨dt.date, dt.minuteOfDay - 1⟩
  else ⟨predDay dt.date, 1439⟩

/-- Shift a date-time by `k` minutes (Python `datetime + timedelta`). -/
def addMinutes (dt : DT) : Int → DT
  | Int.ofNat n => succMin^[n] dt
  | Int.negSucc n => predMin^[n + 1] dt

/-- Validity of a date-time: valid date and in-range minute. -/
def DT.Valid (dt : DT) : Prop :=
  dt.date.Valid ∧ dt.minuteOfDay < 1440

/-- Two-digit zero-padded decimal rendering (`%d`, `%m`, `%H`, `%M`). -/
def pad2 (n : Nat) : String :=
  if n < 10 then "0" ++ toString n else toString n

/-- Abbreviated month name, `strftime` `%b` in the C locale. -/
def monthAbbr (m : Nat) : String :=
  if m = 1 then "Jan" else if m = 2 then "Feb" else if m = 3 then "Mar"
  else if m = 4 then "Apr" else if m = 5 then "May" else if m = 6 then "Jun"
  else if m = 7 then "Jul" else if m = 8 then "Aug" else if m = 9 then "Sep"
  else if m = 10 then "Oct" else if m = 11 then "Nov" else if m = 12 then "Dec"
  else ""

/-- `strftime("%Y")`: the year in decimal. -/
def fmtYear (y : Int) : String := toString y

/-- The program's `dtostr`: `date.strftime("%d/%m/%Y")`. -/
def dtostr (d : Date) : String :=
  pad2 d.day ++ "/" ++ pad2 d.month ++ "/" ++ fmtYear d.year

/-- The four granularities the program passes to `generate_x_axis`:
`('hours', "%H:%M", 0.5)`, `('days', "%d %b %Y", 1)`, `('months', "%b", 1)`,
`('years', "%Y", 1)`. -/
inductive Gran where
  | hours
  | days
  | months
  | years
deriving DecidableEq, Repr

/-- Apply `relativedelta(time_delta_unit = k * inc)` for granularity `g` to a
date-time.  For `hours` the increment is 0.5, so `k * 0.5` hours is exactly
`30 * k` minutes (which is how `relativedelta` normalises the fractional
hours); for the other three the increment is 1 unit. -/
def applyDelta (g : Gran) (dt : DT) (k : Int) : DT :=
  match g with
  | .hours => addMinutes dt (30 * k)
  | .days => ⟨addDays dt.date k, dt.minuteOfDay⟩
  | .months => ⟨addMonths dt.date k, dt.minuteOfDay⟩
  | .years => ⟨addYears dt.date k, dt.minuteOfDay⟩

/-- Format a date-time with the granularity's `strftime` pattern. -/
def Gran.fmt (g : Gran) (dt : DT) : String :=
  match g with
  | .hours => pad2 (dt.minuteOfDay / 60) ++ ":" ++ pad2 (dt.minuteOfDay % 60)
  | .days => pad2 dt.date.day ++ " " ++ monthAbbr dt.date.month ++ " " ++ fmtYear dt.date.year
  | .months => monthAbbr dt.date.month
  | .years => fmtYear dt.date.year

/-- Digit-string value (base 10). -/
def digitsVal (cs : List Char) : Nat :=
  cs.foldl (fun a c => a * 10 + (c.toNat - '0'.toNat)) 0

/-- Split a character sequence at `'/'` separators, as Python
`str.split('/')` (and the `"%d/%m/%Y"` pattern structure) does: `"a//b"`
yields `["a", "", "b"]` and the empty input yields `[""]`. -/
def splitSlash : List Char → List (List Char)
  | [] => [[]]
  | c :: rest =>
    if c = '/' then [] :: splitSlash rest
    else
      match splitSlash rest with
      | [] => [[c]]
      | g :: gs => (c :: g) :: gs

/-- Day field of `strptime("%d")`: one digit `1-9` or two digits `01`-`31`
(the regex `(3[01]|[12]\d|0[1-9]|[1-9])`). -/
def parseDayField (cs : List Char) : Option Nat :=
  if cs.all Char.isDigit ∧ 1 ≤ cs.length ∧ cs.length ≤ 2
      ∧ 1 ≤ digitsVal cs ∧ digitsVal cs ≤ 31 then
    some (digitsVal cs)
  else none

/-- Month field of `strptime("%m")`: one digit `1-9` or two digits `01`-`12`. -/
def parseMonthField (cs : List Char) : Option Nat :=
  if cs.all Char.isDigit ∧ 1 ≤ cs.length ∧ cs.length ≤ 2
      ∧ 1 ≤ digitsVal cs ∧ digitsVal cs ≤ 12 then
    some (digitsVal cs)
  else none

/-- Year field of `strptime("%Y")`: exactly four digits. -/
def parseYearField (cs : List Char) : Option Nat :=
  if cs.all Char.isDigit ∧ cs.length = 4 then some (digitsVal cs) else none

/-- Python `datetime.datetime.strptime(s, "%d/%m/%Y").date()`: three
slash-separated fields matching the `%d`, `%m`, `%Y` patterns, the whole
string consumed, and the resulting triple a constructible `datetime.date`
(year ≥ 1, day within the month). -/
def strptime_dmY (s : String) : Option Date :=
  match splitSlash s.toList with
  | [ds, ms, ys] =>
    match parseDayField ds, parseMonthField ms, parseYearField ys with
    | some dy, some mo, some yr =>
      if 1 ≤ yr ∧ dy ≤ daysInMonth (yr : Int) mo then some ⟨(yr : Int), mo, dy⟩
      else none
    | _, _, _ => none
  | _ => none

/-- The `graphe` object of the raw response.  `dateDebut` is `none` when the
field `periode.dateDebut` is missing from the response (a `KeyError` in the
Python source); values are the `valeur` numbers of `data`, modelled as
integers. -/
structure Graphe where
  data : List Int
  dateDebut : Option String
  decalage : Int
deriving DecidableEq, Repr

/-- The raw API response `\x7b graphe: ... \x7d`. -/
structure Res where
  graphe : Graphe
deriving DecidableEq, Repr

/-- The program's `generate_y_axis`: iterate over `graphe.data` in order and
insert each value at its enumeration index (`list.insert` at the current
length, i.e. append), replacing negative values by 0. -/
def generate_y_axis (res : Res) : List Int :=
  res.graphe.data.enum.foldl
    (fun acc p => List.insertIdx p.1 (if p.2 < 0 then 0 else p.2) acc) []

/-- The program's `generate_x_axis`: parse `graphe.periode.dateDebut` with
`"%d/%m/%Y"` (`none` models the exception on a missing field or a parse
failure), subtract `relativedelta(unit = decalage * inc)` to get the start
instant, then for each enumeration index `ordre` of `graphe.data` insert the
label `strftime(start + relativedelta(unit = ordre * inc))` at that index. -/
def generate_x_axis (res : Res) (g : Gran) : Option (List String) :=
  match res.graphe.dateDebut with
  | none => none
  | some s =>
    match strptime_dmY s with
    | none => none
    | some d =>
      let start := applyDelta g ⟨d, 0⟩ (-res.graphe.decalage)
      some ((List.range res.graphe.data.length).foldl
        (fun acc i => List.insertIdx i (Gran.fmt g (applyDelta g start (Int.ofNat i))) acc) [])

/-- Body of the record-pairing loop: append the record built from `xs[i]`
and `ys[i]`; an out-of-range index is the Python `IndexError`, modelled as
`none`. -/
def pairStep (xs : List String) (ys : List Int)
    (acc : List (String × Int)) (i : Nat) : Option (List (String × Int)) :=
  match xs.get? i, ys.get? i with
  | some x, some y => some (acc ++ [(x, y)])
  | _, _ => none

/-- The record-pairing loop shared by the four exporters:
`for i in range(0, len(xs)): out.append(\x7b"time": xs[i], "conso": ys[i]\x7d)`. -/
def pairValues (xs : List String) (ys : List Int) : Option (List (String × Int)) :=
  (List.range xs.length).foldlM (pairStep xs ys) []

/-- One record serialised as Python `json.dump` renders a dict with string
and int values (default separators `", "` and `": "`). -/
def jsonRecord (r : String × Int) : String :=
  "\x7b\"time\": \"" ++ r.1 ++ "\", \"conso\": " ++ toString r.2 ++ "\x7d"

/-- A record list serialised as by Python `json.dump`. -/
def jsonDump (l : List (String × Int)) : String :=
  "[" ++ String.intercalate ", " (l.map jsonRecord) ++ "]"

/-- The program's `export_hours_values`, as the file content it writes
(`none` when an exception escapes before the write). -/
def export_hours_values (res : Res) : Option String :=
  match generate_x_axis res Gran.hours with
  | none => none
  | some xs =>
    match pairValues xs (generate_y_axis res) with
    | none => none
    | some recs => some (jsonDump recs)

/-- The program's `export_days_values`, as the file content it writes. -/
def export_days_values (res : Res) : Option String :=
  match generate_x_axis res Gran.days with
  | none => none
  | some xs =>
    match pairValues xs (generate_y_axis res) with
    | none => none
    | some recs => some (jsonDump recs)

/-- The program's `export_months_values`, as the file content it writes. -/
def export_months_values (res : Res) : Option String :=
  match generate_x_axis res Gran.months with
  | none => none
  | some xs =>
    match pairValues xs (generate_y_axis res) with
    | none => none
    | some recs => some (jsonDump recs)

/-- The program's `export_years_values`, as the file content it writes. -/
def export_years_values (res : Res) : Option String :=
  match generate_x_axis res Gran.years with
  | none => none
  | some xs =>
    match pairValues xs (generate_y_axis res) with
    | none => none
    | some recs => some (jsonDump recs)

/-- Validity of a Python digit group: nonempty, begins and ends with a digit,
underscores only singly and between digits (`int("1_0")` is legal,
`int("1__0")`, `int("_1")`, `int("1_")` are not). -/
def pyDigitsOk : List Char → Bool
  | [] => false
  | [c] => c.isDigit
  | c :: c2 :: rest =>
    c.isDigit && (if c2 = '_' then pyDigitsOk rest else pyDigitsOk (c2 :: rest))

/-- Python whitespace, as stripped by `str.strip()` (ASCII subset). -/
def pyIsSpace (c : Char) : Bool :=
  c = ' ' || c = '\t' || c = '\n' || c = '\r' || c = '\x0b' || c = '\x0c'

/-- Strip leading and trailing whitespace from a character sequence. -/
def pyTrim (cs : List Char) : List Char :=
  ((cs.dropWhile pyIsSpace).reverse.dropWhile pyIsSpace).reverse

/-- Python `int(s)` on a string: strip surrounding whitespace, optional sign,
then a digit group; `none` models the `ValueError` on anything else. -/
def pyInt (s : String) : Option Int :=
  match pyTrim s.toList with
  | [] => none
  | c :: rest =>
    if c = '+' then
      if pyDigitsOk rest then some (Int.ofNat (digitsVal (rest.filter (· ≠ '_')))) else none
    else if c = '-' then
      if pyDigitsOk rest then some (-(Int.ofNat (digitsVal (rest.filter (· ≠ '_'))))) else none
    else
      if pyDigitsOk (c :: rest) then
        some (Int.ofNat (digitsVal ((c :: rest).filter (· ≠ '_'))))
      else none

/-- Observable actions of `main`, in program order: the `linky.login` call,
the two fetch calls with their formatted date arguments, log lines, and the
write of the day-export file. -/
inductive Event where
  | login
  | fetchMonth (startStr endStr : String)
  | fetchDay (startStr endStr : String)
  | logMsg (msg : String)
  | writeDays (content : String)
deriving DecidableEq, Repr

/-- How the process ends: normal return (exit code 0), `sys.exit(1)` from the
`LinkyLoginException` handler, or an unhandled exception escaping `main`. -/
inductive Outcome where
  | exit0
  | exit1
  | crash (exn : String)
deriving DecidableEq, Repr

/-- The inputs `main` draws from its environment: the CLI argument
`sys.argv[1]` (`none` when absent), today's date, whether `linky.login`
succeeds, and the two fetched responses.  The fetch collaborator is modelled
as total: a fetch failure would propagate uncaught (spec §4.5), and no claim
here concerns that path. -/
structure MainEnv where
  argv1 : Option String
  today : Date
  loginOk : Bool
  resMonth : Res
  resDay : Res

/-- The program's `main`: log in (a failure is caught and becomes
`sys.exit(1)`), read and convert `sys.argv[1]` (an `IndexError` or
`ValueError` escapes uncaught), fetch the 12-month window and the shifted
one-month window, then run the day exporter with its own exception handler.
Returns the outcome together with the ordered event trace. -/
def mainRun (env : MainEnv) : Outcome × List Event :=
  if env.loginOk then
    match env.argv1 with
    | none => (Outcome.crash "IndexError", [Event.login])
    | some a =>
      match pyInt a with
      | none => (Outcome.crash "ValueError", [Event.login, Event.logMsg ("arg " ++ a)])
      | some m =>
        let dayEnd := dtostr (addDays (addMonths env.today (-m)) (-1))
        let dayStart := dtostr (addDays (addMonths env.today (-(m + 1))) (-1))
        let pre : List Event :=
          [Event.login, Event.logMsg ("arg " ++ a),
           Event.logMsg dayEnd, Event.logMsg dayStart,
           Event.fetchMonth (dtostr (addMonths env.today (-11))) (dtostr env.today),
           Event.fetchDay dayStart dayEnd]
        match export_days_values env.resDay with
        | some c => (Outcome.exit0, pre ++ [Event.writeDays c])
        | none => (Outcome.exit0, pre ++ [Event.logMsg "days values non exported"])
  else (Outcome.exit1, [Event.login])

/-- File open modes relevant to the exporters; `open(path, 'w+')` truncates
the file, `'a'` would append. -/
inductive WriteMode where
  | wplus
  | append
deriving DecidableEq, Repr

/-- Content of a file after writing `new` over `prior` content in the given
mode. -/
def fileAfterWrite (mode : WriteMode) (prior new : String) : String :=
  match mode with
  | .wplus => new
  | .append => prior ++ new

/-- One run of the day exporter against a file currently holding `prior`:
on success the file holds the freshly serialised records (the program opens
with `'w+'`); on failure the exception is raised before the `open`, so the
file is untouched. -/
def exportDaysRun (prior : String) (res : Res) : String :=
  match export_days_values res with
  | some c => fileAfterWrite WriteMode.wplus prior c
  | none => prior

/-! Helper lemmas about the insert-at-enumeration-index loops: inserting at
the running index into an initially empty list is the same as mapping. -/

theorem foldl_insertIdx_range {β : Type} (f : Nat → β) (n : Nat) :
    (List.range n).foldl (fun acc i => List.insertIdx i (f i) acc) [] =
      (List.range n).map f := by
  induction n with
  | zero => rfl
  | succ n ih =>
    rw [List.range_succ, List.foldl_append, ih, List.map_append]
    have h := List.insertIdx_length_self ((List.range n).map f) (f n)
    simpa using h

theorem enumFrom_concat {α : Type} (k : Nat) (l : List α) (a : α) :
    List.enumFrom k (l ++ [a]) = List.enumFrom k l ++ [(k + l.length, a)] := by
  induction l generalizing k with
  | nil => rfl
  | cons b t ih =>
    have h1 : k + 1 + t.length = k + (b :: t).length := by
      simp only [List.length_cons]; omega
    calc List.enumFrom k ((b :: t) ++ [a])
        = (k, b) :: List.enumFrom (k + 1) (t ++ [a]) := rfl
      _ = (k, b) :: (List.enumFrom (k + 1) t ++ [(k + 1 + t.length, a)]) := by rw [ih]
      _ = List.enumFrom k (b :: t) ++ [(k + (b :: t).length, a)] := by rw [h1]; rfl

theorem foldl_insertIdx_enum {α β : Type} (g : Nat × α → β) (l : List α) :
    l.enum.foldl (fun acc p => List.insertIdx p.1 (g p) acc) [] = l.enum.map g := by
  induction l using List.reverseRecOn with
  | nil => rfl
  | append_singleton l a ih =>
    have he : (l ++ [a]).enum = l.enum ++ [(l.length, a)] := by
      simpa [List.enum] using enumFrom_concat 0 l a
    rw [he, List.foldl_append, ih, List.map_append]
    have h := List.insertIdx_length_self (l.enum.map g) (g (l.length, a))
    simp only [List.length_map, List.enum_length] at h
    simpa using h

/-- The cleaned value sequence is the input values with negatives clamped to
zero, in order. -/
theorem generate_y_axis_eq (res : Res) :
    generate_y_axis res =
      res.graphe.data.map (fun v => if v < 0 then 0 else v) := by
  unfold generate_y_axis
  rw [foldl_insertIdx_enum (fun p : Nat × Int => if p.2 < 0 then 0 else p.2)]
  have : (fun p : Nat × Int => if p.2 < 0 then 0 else p.2) =
      (fun v : Int => if v < 0 then 0 else v) ∘ Prod.snd := rfl
  rw [this, ← List.map_map, List.enum_map_snd]

/-- When the start date is present and parses, the time axis is the mapped
label sequence over the enumeration indices of `graphe.data`. -/
theorem generate_x_axis_eq (res : Res) (g : Gran) (s : String) (d : Date)
    (hs : res.graphe.dateDebut = some s) (hd : strptime_dmY s = some d) :
    generate_x_axis res g =
      some ((List.range res.graphe.data.length).map
        (fun i => Gran.fmt g
          (applyDelta g (applyDelta g ⟨d, 0⟩ (-res.graphe.decalage)) (Int.ofNat i)))) := by
  unfold generate_x_axis
  rw [hs]
  dsimp only
  rw [hd]
  dsimp only
  rw [foldl_insertIdx_range]

/-- When the start date is missing or fails to parse, axis generation fails
(the exception propagates). -/
theorem generate_x_axis_none (res : Res) (g : Gran)
    (h : res.graphe.dateDebut.bind strptime_dmY = none) :
    generate_x_axis res g = none := by
  cases hs : res.graphe.dateDebut with
  | none =>
    unfold generate_x_axis
    rw [hs]
  | some s =>
    rw [hs] at h
    have h2 : strptime_dmY s = none := h
    unfold generate_x_axis
    rw [hs]
    dsimp only
    rw [h2]

/-! Characterisation of the pairing loop. -/

theorem pairValues_take (xs : List String) (ys : List Int) :
    ∀ n, n ≤ xs.length → n ≤ ys.length → ∀ acc,
      (List.range n).foldlM (pairStep xs ys) acc = some (acc ++ (xs.zip ys).take n) := by
  intro n
  induction n with
  | zero => intro _ _ acc; simp
  | succ n ih =>
    intro hx hy acc
    have hx' : n < xs.length := by omega
    have hy' : n < ys.length := by omega
    rw [List.range_succ, List.foldlM_append, ih (by omega) (by omega) acc]
    have hz : (xs.zip ys)[n]? = some (xs[n], ys[n]) := by
      rw [List.getElem?_zip_eq_some]
      exact ⟨List.getElem?_eq_getElem hx', List.getElem?_eq_getElem hy'⟩
    have hstep : pairStep xs ys (acc ++ (xs.zip ys).take n) n =
        some (acc ++ (xs.zip ys).take n ++ [(xs[n], ys[n])]) := by
      unfold pairStep
      rw [List.get?_eq_get hx', List.get?_eq_get hy']
      rfl
    simp only [List.foldlM, Option.bind_eq_bind, Option.some_bind, bind_pure]
    rw [hstep, List.take_succ, hz]
    simp [List.append_assoc]

theorem pairValues_eq_zip (xs : List String) (ys : List Int)
    (h : xs.length ≤ ys.length) : pairValues xs ys = some (xs.zip ys) := by
  unfold pairValues
  rw [pairValues_take xs ys xs.length le_rfl h []]
  rw [List.take_of_length_le (by rw [List.length_zip]; omega), List.nil_append]

theorem pairValues_fail (xs : List String) (ys : List Int)
    (h : ys.length < xs.length) : pairValues xs ys = none := by
  unfold pairValues
  obtain ⟨k, hk⟩ : ∃ k, xs.length = (ys.length + 1) + k := ⟨xs.length - ys.length - 1, by omega⟩
  rw [hk, List.range_add, List.foldlM_append, List.range_succ, List.foldlM_append]
  rw [pairValues_take xs ys ys.length (by omega) le_rfl []]
  have hstep : ∀ acc, pairStep xs ys acc ys.length = none := by
    intro acc
    unfold pairStep
    have : ys.get? ys.length = none := by
      rw [List.get?_eq_none]
    rw [this]
    cases xs.get? ys.length <;> rfl
  simp [List.foldlM, hstep]

/-! Calendar sanity: all date-stepping operations preserve validity, and a
zero shift is the identity on valid dates (as it is on Python `date`s). -/

/-! Calendar sanity: all date-stepping operations preserve validity, and a
zero shift is the identity on valid dates (as it is on Python `date`s). -/

theorem daysInMonth_ge (y : Int) (m : Nat) : 28 ≤ daysInMonth y m := by
  unfold daysInMonth
  split
  · split <;> omega
  · split <;> omega

theorem daysInMonth_twelve (y : Int) : daysInMonth y 12 = 31 := by
  norm_num [daysInMonth]

theorem succDay_valid {d : Date} (h : d.Valid) : (succDay d).Valid := by
  obtain ⟨h1, h2, h3, h4⟩ := h
  unfold succDay
  split
  · next hc =>
    refine ⟨?_, ?_, ?_, ?_⟩ <;> dsimp only <;> omega
  · split
    · next hc2 =>
      have hd := daysInMonth_ge d.year (d.month + 1)
      refine ⟨?_, ?_, ?_, ?_⟩ <;> dsimp only <;> omega
    · have hd := daysInMonth_ge (d.year + 1) 1
      refine ⟨?_, ?_, ?_, ?_⟩ <;> dsimp only <;> omega

theorem predDay_valid {d : Date} (h : d.Valid) : (predDay d).Valid := by
  obtain ⟨h1, h2, h3, h4⟩ := h
  unfold predDay
  split
  · next hc =>
    refine ⟨?_, ?_, ?_, ?_⟩ <;> dsimp only <;> omega
  · split
    · next hc2 =>
      have hd := daysInMonth_ge d.year (d.month - 1)
      refine ⟨?_, ?_, ?_, ?_⟩ <;> dsimp only <;> omega
    · have hd := daysInMonth_twelve (d.year - 1)
      refine ⟨?_, ?_, ?_, ?_⟩ <;> dsimp only <;> omega

theorem iterate_preserves {α : Type} (P : α → Prop) (f : α → α)
    (hf : ∀ a, P a → P (f a)) : ∀ (n : Nat) (a : α), P a → P (f^[n] a) := by
  intro n
  induction n with
  | zero => intro a ha; exact ha
  | succ n ih =>
    intro a ha
    rw [Function.iterate_succ_apply]
    exact ih (f a) (hf a ha)

theorem addDays_valid {d : Date} (h : d.Valid) (k : Int) : (addDays d k).Valid := by
  cases k with
  | ofNat n => exact iterate_preserves Date.Valid succDay (fun _ => succDay_valid) n d h
  | negSucc n => exact iterate_preserves Date.Valid predDay (fun _ => predDay_valid) (n + 1) d h

theorem addMonths_valid {d : Date} (h : d.Valid) (k : Int) : (addMonths d k).Valid := by
  obtain ⟨h1, h2, h3, h4⟩ := h
  simp only [addMonths, Date.Valid]
  set t : Int := d.year * 12 + ((d.month : Int) - 1) + k with ht
  have hnn := Int.emod_nonneg t (show (12 : Int) ≠ 0 by norm_num)
  have hlt := Int.emod_lt_of_pos t (show (0 : Int) < 12 by norm_num)
  have hd := daysInMonth_ge (t / 12) ((t % 12).toNat + 1)
  refine ⟨by omega, by omega, ?_, Nat.min_le_right _ _⟩
  omega

theorem addYears_valid {d : Date} (h : d.Valid) (k : Int) : (addYears d k).Valid := by
  obtain ⟨h1, h2, h3, h4⟩ := h
  simp only [addYears, Date.Valid]
  have hd := daysInMonth_ge (d.year + k) d.month
  refine ⟨h1, h2, ?_, Nat.min_le_right _ _⟩
  omega

theorem succMin_valid {dt : DT} (h : dt.Valid) : (succMin dt).Valid := by
  obtain ⟨h1, h2⟩ := h
  unfold succMin
  split
  · next hc => exact ⟨h1, hc⟩
  · exact ⟨succDay_valid h1, by norm_num⟩

theorem predMin_valid {dt : DT} (h : dt.Valid) : (predMin dt).Valid := by
  obtain ⟨h1, h2⟩ := h
  unfold predMin
  split
  · next hc =>
    refine ⟨h1, ?_⟩
    dsimp only
    omega
  · exact ⟨predDay_valid h1, by norm_num⟩

theorem addMinutes_valid {dt : DT} (h : dt.Valid) (k : Int) : (addMinutes dt k).Valid := by
  cases k with
  | ofNat n => exact iterate_preserves DT.Valid succMin (fun _ => succMin_valid) n dt h
  | negSucc n => exact iterate_preserves DT.Valid predMin (fun _ => predMin_valid) (n + 1) dt h

theorem applyDelta_valid {dt : DT} (h : dt.Valid) (g : Gran) (k : Int) :
    (applyDelta g dt k).Valid := by
  cases g with
  | hours => exact addMinutes_valid h (30 * k)
  | days => exact ⟨addDays_valid h.1 k, h.2⟩
  | months => exact ⟨addMonths_valid h.1 k, h.2⟩
  | years => exact ⟨addYears_valid h.1 k, h.2⟩

theorem addDays_zero (d : Date) : addDays d 0 = d := rfl

theorem addMonths_zero {d : Date} (h : d.Valid) : addMonths d 0 = d := by
  obtain ⟨h1, h2, h3, h4⟩ := h
  simp only [addMonths]
  have ht : d.year * 12 + ((d.month : Int) - 1) + 0 = ((d.month : Int) - 1) + d.year * 12 := by
    ring
  rw [ht]
  have he1 : (((d.month : Int) - 1) + d.year * 12) / 12 = d.year := by
    rw [Int.add_mul_ediv_right _ _ (show (12 : Int) ≠ 0 by norm_num)]
    rw [Int.ediv_eq_zero_of_lt (by omega) (by omega)]
    omega
  have he2 : (((d.month : Int) - 1) + d.year * 12) % 12 = (d.month : Int) - 1 := by
    rw [Int.add_mul_emod_self]
    exact Int.emod_eq_of_lt (by omega) (by omega)
  rw [he1, he2]
  have hm : ((d.month : Int) - 1).toNat + 1 = d.month := by omega
  rw [hm, Nat.min_eq_left h4]

theorem addYears_zero {d : Date} (h : d.Valid) : addYears d 0 = d := by
  obtain ⟨h1, h2, h3, h4⟩ := h
  simp only [addYears]
  rw [Int.add_zero, Nat.min_eq_left h4]

theorem applyDelta_zero {dt : DT} (h : dt.Valid) (g : Gran) :
    applyDelta g dt 0 = dt := by
  cases g with
  | hours =>
    show addMinutes dt (30 * 0) = dt
    rw [Int.mul_zero]
    rfl
  | days => rfl
  | months =>
    show (⟨addMonths dt.date 0, dt.minuteOfDay⟩ : DT) = dt
    rw [addMonths_zero h.1]
  | years =>
    show (⟨addYears dt.date 0, dt.minuteOfDay⟩ : DT) = dt
    rw [addYears_zero h.1]

theorem parseDayField_some {s : List Char} {n : Nat} (h : parseDayField s = some n) :
    1 ≤ n ∧ n ≤ 31 := by
  simp only [parseDayField] at h
  split at h
  · next hp => cases h; exact ⟨hp.2.2.2.1, hp.2.2.2.2⟩
  · cases h

theorem parseMonthField_some {s : List Char} {n : Nat} (h : parseMonthField s = some n) :
    1 ≤ n ∧ n ≤ 12 := by
  simp only [parseMonthField] at h
  split at h
  · next hp => cases h; exact ⟨hp.2.2.2.1, hp.2.2.2.2⟩
  · cases h

/-- A parsed `%d/%m/%Y` date is a valid calendar date. -/
theorem strptime_valid {s : String} {d : Date} (h : strptime_dmY s = some d) : d.Valid := by
  unfold strptime_dmY at h
  split at h
  · split at h
    · next dy mo yr hds hms hys =>
      split at h
      · next hg =>
        cases h
        exact ⟨(parseMonthField_some hms).1, (parseMonthField_some hms).2,
          (parseDayField_some hds).1, hg.2⟩
      · cases h
    · cases h
  · cases h
/-- Inversion: a successful axis generation determines the parsed start date
and the label list. -/
theorem generate_x_axis_some_inv {res : Res} {g : Gran} {xs : List String}
    (h : generate_x_axis res g = some xs) :
    ∃ s d, res.graphe.dateDebut = some s ∧ strptime_dmY s = some d ∧
      xs = (List.range res.graphe.data.length).map
        (fun i => Gran.fmt g
          (applyDelta g (applyDelta g ⟨d, 0⟩ (-res.graphe.decalage)) (Int.ofNat i))) := by
  cases hs : res.graphe.dateDebut with
  | none =>
    rw [generate_x_axis_none res g (by rw [hs]; rfl)] at h
    cases h
  | some s =>
    cases hd : strptime_dmY s with
    | none =>
      rw [generate_x_axis_none res g (by rw [hs]; exact hd)] at h
      cases h
    | some d =>
      rw [generate_x_axis_eq res g s d hs hd] at h
      exact ⟨s, d, rfl, hd, (Option.some.inj h).symm⟩

/-- A generated axis has one label per data point. -/
theorem generate_x_axis_length {res : Res} {g : Gran} {xs : List String}
    (h : generate_x_axis res g = some xs) : xs.length = res.graphe.data.length := by
  obtain ⟨s, d, hs, hd, hxs⟩ := generate_x_axis_some_inv h
  subst hxs
  simp

/-- C1: for every response with a parseable `dateDebut`, integer `decalage`
and `n` data points, and every granularity, the generated axis has `n`
labels; the `i`-th label is the start instant
`parse(dateDebut) − decalage·inc` units shifted forward by `i·inc` units and
formatted with the granularity's pattern, and in particular the first label
is the formatted start instant itself. -/
theorem c1_time_axis_labels (res : Res) (g : Gran) (xs : List String)
    (s : String) (d : Date)
    (hs : res.graphe.dateDebut = some s) (hd : strptime_dmY s = some d)
    (hx : generate_x_axis res g = some xs) :
    xs.length = res.graphe.data.length ∧
    (∀ i (hi : i < res.graphe.data.length),
      xs.get? i = some (Gran.fmt g
        (applyDelta g (applyDelta g ⟨d, 0⟩ (-res.graphe.decalage)) (Int.ofNat i)))) ∧
    (0 < res.graphe.data.length →
      xs.get? 0 = some (Gran.fmt g (applyDelta g ⟨d, 0⟩ (-res.graphe.decalage)))) := by
  rw [generate_x_axis_eq res g s d hs hd] at hx
  have hxs := Option.some.inj hx
  subst hxs
  refine ⟨by simp, ?_, ?_⟩
  · intro i hi
    rw [List.get?_map, List.get?_range hi]
    rfl
  · intro h0
    rw [List.get?_map, List.get?_range h0]
    have hv : DT.Valid (applyDelta g ⟨d, 0⟩ (-res.graphe.decalage)) :=
      applyDelta_valid ⟨strptime_valid hd, by norm_num⟩ g _
    have hz : applyDelta g (applyDelta g ⟨d, 0⟩ (-res.graphe.decalage)) (Int.ofNat 0) =
        applyDelta g ⟨d, 0⟩ (-res.graphe.decalage) := by
      have h00 : (Int.ofNat 0) = (0 : Int) := rfl
      rw [h00, applyDelta_zero hv g]
    simp only [Option.map_some']
    rw [hz]

/-- Witness for C1: the leap-year response at day granularity. -/
theorem c1_time_axis_labels_witness :
    (["28 Feb 2024", "29 Feb 2024", "01 Mar 2024"] : List String).length =
      (⟨⟨[-5, 10, 20], some "01/03/2024", 2⟩⟩ : Res).graphe.data.length ∧
    (["28 Feb 2024", "29 Feb 2024", "01 Mar 2024"] : List String).get? 0 =
      some (Gran.fmt Gran.days (applyDelta Gran.days ⟨⟨2024, 3, 1⟩, 0⟩ (-2))) := by
  have h := c1_time_axis_labels ⟨⟨[-5, 10, 20], some "01/03/2024", 2⟩⟩ Gran.days
    ["28 Feb 2024", "29 Feb 2024", "01 Mar 2024"] "01/03/2024" ⟨2024, 3, 1⟩
    rfl (by decide) (by decide)
  exact ⟨h.1, h.2.2 (by norm_num)⟩

/-- C3: the Value Extractor clamps each negative raw value to exactly 0,
keeps nonnegative values unchanged, and preserves order and count. -/
theorem c3_value_extractor (res : Res) :
    (generate_y_axis res).length = res.graphe.data.length ∧
    ∀ i (hi : i < res.graphe.data.length),
      (generate_y_axis res).get? i =
        some (if res.graphe.data.get ⟨i, hi⟩ < 0 then 0
              else res.graphe.data.get ⟨i, hi⟩) := by
  rw [generate_y_axis_eq]
  refine ⟨by simp, ?_⟩
  intro i hi
  rw [List.get?_map, List.get?_eq_get hi]
  rfl

/-- Witness for C3: the sentinel `-5` becomes `0` and `10` is unchanged. -/
theorem c3_value_extractor_witness :
    (generate_y_axis ⟨⟨[-5, 10], some "01/03/2024", 2⟩⟩).length =
      (⟨⟨[-5, 10], some "01/03/2024", 2⟩⟩ : Res).graphe.data.length ∧
    (generate_y_axis ⟨⟨[-5, 10], some "01/03/2024", 2⟩⟩).get? 0 = some 0 := by
  have h := c3_value_extractor ⟨⟨[-5, 10], some "01/03/2024", 2⟩⟩
  refine ⟨h.1, ?_⟩
  have h0 := h.2 0 (by norm_num)
  simpa using h0

/-- C4: when the day exporter succeeds, the cleaned values, the labels and
the paired records all have the length of `graphe.data`, and the records are
exactly the index-aligned zip of labels with cleaned values. -/
theorem c4_lengths_align (res : Res) (c : String)
    (h : export_days_values res = some c) :
    ∃ xs recs, generate_x_axis res Gran.days = some xs ∧
      pairValues xs (generate_y_axis res) = some recs ∧
      xs.length = res.graphe.data.length ∧
      (generate_y_axis res).length = res.graphe.data.length ∧
      recs.length = res.graphe.data.length ∧
      recs = xs.zip (generate_y_axis res) := by
  unfold export_days_values at h
  split at h
  · cases h
  · next xs hxs =>
    split at h
    · cases h
    · next recs hrecs =>
      have hxlen : xs.length = res.graphe.data.length := generate_x_axis_length hxs
      have hylen : (generate_y_axis res).length = res.graphe.data.length := by
        rw [generate_y_axis_eq]; simp
      have hzip := pairValues_eq_zip xs (generate_y_axis res) (by omega)
      rw [hzip] at hrecs
      have hr := Option.some.inj hrecs
      subst hr
      refine ⟨xs, _, hxs, hzip, hxlen, hylen, ?_, rfl⟩
      rw [List.length_zip]
      omega

/-- Witness for C4 at the concrete leap-year response. -/
theorem c4_lengths_align_witness :
    ∃ xs recs,
      generate_x_axis ⟨⟨[-5, 10, 20], some "01/03/2024", 2⟩⟩ Gran.days = some xs ∧
      pairValues xs (generate_y_axis ⟨⟨[-5, 10, 20], some "01/03/2024", 2⟩⟩) = some recs ∧
      xs.length = 3 ∧
      (generate_y_axis ⟨⟨[-5, 10, 20], some "01/03/2024", 2⟩⟩).length = 3 ∧
      recs.length = 3 ∧
      recs = xs.zip (generate_y_axis ⟨⟨[-5, 10, 20], some "01/03/2024", 2⟩⟩) :=
  c4_lengths_align ⟨⟨[-5, 10, 20], some "01/03/2024", 2⟩⟩
    (jsonDump [("28 Feb 2024", 0), ("29 Feb 2024", 10), ("01 Mar 2024", 20)]) (by decide)

/-- C7 counterexample: a label list and a longer value list have differing
lengths, yet the pairing loop succeeds (silently dropping the extra value)
instead of failing with a length-mismatch error. -/
theorem c7_pairer_counterexample :
    (["a"] : List String).length ≠ ([1, 2] : List Int).length ∧
    pairValues ["a"] [1, 2] = some [("a", 1)] := by
  exact ⟨by decide, by decide⟩

/-- C7 amended: on sequences of differing lengths the pairing loop fails
(by an out-of-range access, not a defensive check) exactly when the value
sequence is shorter than the label sequence; when it is longer, the loop
silently truncates. -/
theorem c7_pairer_amended (xs : List String) (ys : List Int)
    (h : xs.length ≠ ys.length) :
    pairValues xs ys = none ↔ ys.length < xs.length := by
  constructor
  · intro hn
    by_contra hlt
    push_neg at hlt
    rw [pairValues_eq_zip xs ys (by omega)] at hn
    cases hn
  · intro hlt
    exact pairValues_fail xs ys hlt

/-- Witness for C7 amended: one label against no values fails. -/
theorem c7_pairer_amended_witness :
    (["a"] : List String).length ≠ ([] : List Int).length ∧
    (pairValues ["a"] [] = none ↔ ([] : List Int).length < (["a"] : List String).length) :=
  ⟨by decide, c7_pairer_amended ["a"] [] (by decide)⟩

/-- C2 counterexample: on `dateDebut = "01/03/2024"`, `decalage = 2`, data
`[-5, 10, 20]`, the day exporter does not produce the claimed records
starting at `27 Feb 2024` (2024 is a leap year: 1 Mar − 2 days is 28 Feb). -/
theorem c2_day_export_counterexample :
    export_days_values ⟨⟨[-5, 10, 20], some "01/03/2024", 2⟩⟩ ≠
      some (jsonDump [("27 Feb 2024", 0), ("28 Feb 2024", 10), ("29 Feb 2024", 20)]) := by
  decide

/-- C2 amended: the day exporter produces the records
`28 Feb 2024 ↦ 0`, `29 Feb 2024 ↦ 10`, `01 Mar 2024 ↦ 20`. -/
theorem c2_day_export_amended :
    export_days_values ⟨⟨[-5, 10, 20], some "01/03/2024", 2⟩⟩ =
      some (jsonDump [("28 Feb 2024", 0), ("29 Feb 2024", 10), ("01 Mar 2024", 20)]) := by
  decide

/-- C9: a successful day-export run writes the serialised records over any
prior file content (the `'w+'` mode truncates), so the result is independent
of the prior content and a second identical run leaves the file byte-for-byte
unchanged. -/
theorem c9_idempotent_overwrite (res : Res) (prior : String) (c : String)
    (h : export_days_values res = some c) :
    exportDaysRun prior res = c ∧
    exportDaysRun (exportDaysRun prior res) res = exportDaysRun prior res := by
  unfold exportDaysRun
  rw [h]
  exact ⟨rfl, rfl⟩

/-- Witness for C9 at a one-point response over stale prior content. -/
theorem c9_idempotent_overwrite_witness :
    exportDaysRun "stale prior content" ⟨⟨[3], some "02/01/2024", 1⟩⟩ =
      jsonDump [("01 Jan 2024", 3)] ∧
    exportDaysRun (exportDaysRun "stale prior content" ⟨⟨[3], some "02/01/2024", 1⟩⟩)
        ⟨⟨[3], some "02/01/2024", 1⟩⟩ =
      exportDaysRun "stale prior content" ⟨⟨[3], some "02/01/2024", 1⟩⟩ :=
  c9_idempotent_overwrite ⟨⟨[3], some "02/01/2024", 1⟩⟩ "stale prior content" _ (by decide)

/-- C10: on a response with no data points but a present, parseable start
date, every exporter succeeds and writes exactly `[]`; the date is still
parsed first, so a missing or malformed `dateDebut` makes every exporter
fail even with no data. -/
theorem c10_empty_data (res : Res) (h : res.graphe.data = []) :
    (∀ d, res.graphe.dateDebut.bind strptime_dmY = some d →
      export_hours_values res = some "[]" ∧ export_days_values res = some "[]" ∧
      export_months_values res = some "[]" ∧ export_years_values res = some "[]") ∧
    (res.graphe.dateDebut.bind strptime_dmY = none →
      export_hours_values res = none ∧ export_days_values res = none ∧
      export_months_values res = none ∧ export_years_values res = none) := by
  constructor
  · intro d hbind
    obtain ⟨s, hs, hd⟩ : ∃ s, res.graphe.dateDebut = some s ∧ strptime_dmY s = some d := by
      cases hs : res.graphe.dateDebut with
      | none => rw [hs] at hbind; cases hbind
      | some s => exact ⟨s, rfl, by rw [hs] at hbind; exact hbind⟩
    have hax : ∀ g : Gran, generate_x_axis res g = some [] := by
      intro g
      rw [generate_x_axis_eq res g s d hs hd, h]
      rfl
    refine ⟨?_, ?_, ?_, ?_⟩
    · unfold export_hours_values
      rw [hax Gran.hours]
      rfl
    · unfold export_days_values
      rw [hax Gran.days]
      rfl
    · unfold export_months_values
      rw [hax Gran.months]
      rfl
    · unfold export_years_values
      rw [hax Gran.years]
      rfl
  · intro hbind
    have hax : ∀ g : Gran, generate_x_axis res g = none :=
      fun g => generate_x_axis_none res g hbind
    refine ⟨?_, ?_, ?_, ?_⟩
    · unfold export_hours_values
      rw [hax Gran.hours]
    · unfold export_days_values
      rw [hax Gran.days]
    · unfold export_months_values
      rw [hax Gran.months]
    · unfold export_years_values
      rw [hax Gran.years]

/-- Witness for C10: empty data with a parseable date yields `[]` from all
four exporters, and empty data with a malformed date fails in all four. -/
theorem c10_empty_data_witness :
    (export_hours_values ⟨⟨[], some "01/03/2024", 7⟩⟩ = some "[]" ∧
     export_days_values ⟨⟨[], some "01/03/2024", 7⟩⟩ = some "[]" ∧
     export_months_values ⟨⟨[], some "01/03/2024", 7⟩⟩ = some "[]" ∧
     export_years_values ⟨⟨[], some "01/03/2024", 7⟩⟩ = some "[]") ∧
    (export_hours_values ⟨⟨[], some "2024-03-01", 7⟩⟩ = none ∧
     export_days_values ⟨⟨[], some "2024-03-01", 7⟩⟩ = none ∧
     export_months_values ⟨⟨[], some "2024-03-01", 7⟩⟩ = none ∧
     export_years_values ⟨⟨[], some "2024-03-01", 7⟩⟩ = none) :=
  ⟨(c10_empty_data ⟨⟨[], some "01/03/2024", 7⟩⟩ rfl).1 ⟨2024, 3, 1⟩ (by decide),
   (c10_empty_data ⟨⟨[], some "2024-03-01", 7⟩⟩ rfl).2 (by decide)⟩

/-- When the pipeline reaches the export stage (login succeeded and the CLI
argument converted), `main` is fully determined: the fetch windows, the log
lines, and the final outcome depending only on the day exporter's result. -/
theorem mainRun_reached (env : MainEnv) (a : String) (m : Int)
    (hl : env.loginOk = true) (ha : env.argv1 = some a) (hm : pyInt a = some m) :
    mainRun env =
      (Outcome.exit0,
       [Event.login, Event.logMsg ("arg " ++ a),
        Event.logMsg (dtostr (addDays (addMonths env.today (-m)) (-1))),
        Event.logMsg (dtostr (addDays (addMonths env.today (-(m + 1))) (-1))),
        Event.fetchMonth (dtostr (addMonths env.today (-11))) (dtostr env.today),
        Event.fetchDay (dtostr (addDays (addMonths env.today (-(m + 1))) (-1)))
                       (dtostr (addDays (addMonths env.today (-m)) (-1)))] ++
       (match export_days_values env.resDay with
        | some c => [Event.writeDays c]
        | none => [Event.logMsg "days values non exported"])) := by
  obtain ⟨argv, today, lok, rm, rd⟩ := env
  simp only at hl ha hm
  subst hl
  subst ha
  simp only [mainRun, if_true, hm]
  cases export_days_values rd <;> rfl

/-- C5 counterexample: at `today = 15/03/2024` and offset `0`, the per-day
fetch window the program requests is `14/02/2024`–`14/03/2024`, not the
claimed `today − 2 months` to `today − 1 month` window. -/
theorem c5_fetch_window_counterexample :
    Event.fetchDay "14/02/2024" "14/03/2024" ∈
      (mainRun ⟨some "0", ⟨2024, 3, 15⟩, true, ⟨⟨[], none, 0⟩⟩, ⟨⟨[], none, 0⟩⟩⟩).2 ∧
    Event.fetchDay (dtostr (addMonths ⟨2024, 3, 15⟩ (-(0 + 2))))
        (dtostr (addMonths ⟨2024, 3, 15⟩ (-(0 + 1)))) ∉
      (mainRun ⟨some "0", ⟨2024, 3, 15⟩, true, ⟨⟨[], none, 0⟩⟩, ⟨⟨[], none, 0⟩⟩⟩).2 := by
  exact ⟨by decide, by decide⟩

/-- C5 amended: the per-day fetch requests the window from
`today − (offset+1) months − 1 day` to `today − offset months − 1 day`,
both endpoints formatted as `DD/MM/YYYY` by `dtostr`. -/
theorem c5_fetch_window_amended (env : MainEnv) (a : String) (m : Int)
    (hl : env.loginOk = true) (ha : env.argv1 = some a) (hm : pyInt a = some m) :
    Event.fetchDay (dtostr (addDays (addMonths env.today (-(m + 1))) (-1)))
        (dtostr (addDays (addMonths env.today (-m)) (-1))) ∈ (mainRun env).2 := by
  rw [mainRun_reached env a m hl ha hm]
  simp

/-- Witness for C5 amended at `today = 15/03/2024`, offset `2`. -/
theorem c5_fetch_window_amended_witness :
    Event.fetchDay
        (dtostr (addDays (addMonths (⟨2024, 3, 15⟩ : Date) (-(2 + 1))) (-1)))
        (dtostr (addDays (addMonths (⟨2024, 3, 15⟩ : Date) (-2)) (-1))) ∈
      (mainRun ⟨some "2", ⟨2024, 3, 15⟩, true, ⟨⟨[], none, 0⟩⟩, ⟨⟨[], none, 0⟩⟩⟩).2 :=
  c5_fetch_window_amended ⟨some "2", ⟨2024, 3, 15⟩, true, ⟨⟨[], none, 0⟩⟩, ⟨⟨[], none, 0⟩⟩⟩
    "2" 2 rfl rfl (by decide)

/-- C6 counterexample: with the CLI argument missing the run does fail
before any fetch, but authentication has already been performed: the login
event is in the trace. -/
theorem c6_arg_failure_counterexample :
    (mainRun ⟨none, ⟨2024, 3, 15⟩, true, ⟨⟨[], none, 0⟩⟩, ⟨⟨[], none, 0⟩⟩⟩).1 =
      Outcome.crash "IndexError" ∧
    Event.login ∈ (mainRun ⟨none, ⟨2024, 3, 15⟩, true, ⟨⟨[], none, 0⟩⟩, ⟨⟨[], none, 0⟩⟩⟩).2 := by
  exact ⟨by decide, by decide⟩

/-- C6 amended: a missing or non-integer CLI argument makes the run fail
with an unhandled exception before any fetch request, but only after
authentication has been performed. -/
theorem c6_arg_failure_amended (env : MainEnv) (hl : env.loginOk = true)
    (ha : env.argv1.bind pyInt = none) :
    (∃ msg, (mainRun env).1 = Outcome.crash msg) ∧
    (∀ u v, Event.fetchMonth u v ∉ (mainRun env).2 ∧ Event.fetchDay u v ∉ (mainRun env).2) ∧
    Event.login ∈ (mainRun env).2 := by
  obtain ⟨argv, today, lok, rm, rd⟩ := env
  simp only at hl ha ⊢
  subst hl
  cases argv with
  | none =>
    refine ⟨⟨"IndexError", rfl⟩, ?_, ?_⟩
    · intro u v
      constructor <;> simp [mainRun]
    · simp [mainRun]
  | some a =>
    have hm : pyInt a = none := by simpa using ha
    refine ⟨⟨"ValueError", ?_⟩, ?_, ?_⟩
    · simp only [mainRun, if_true, hm]
    · intro u v
      constructor <;> simp [mainRun, hm]
    · simp [mainRun, hm]

/-- Witness for C6 amended: a non-integer argument. -/
theorem c6_arg_failure_amended_witness :
    (∃ msg,
      (mainRun ⟨some "zz", ⟨2024, 3, 15⟩, true, ⟨⟨[], none, 0⟩⟩, ⟨⟨[], none, 0⟩⟩⟩).1 =
        Outcome.crash msg) ∧
    (∀ u v,
      Event.fetchMonth u v ∉
        (mainRun ⟨some "zz", ⟨2024, 3, 15⟩, true, ⟨⟨[], none, 0⟩⟩, ⟨⟨[], none, 0⟩⟩⟩).2 ∧
      Event.fetchDay u v ∉
        (mainRun ⟨some "zz", ⟨2024, 3, 15⟩, true, ⟨⟨[], none, 0⟩⟩, ⟨⟨[], none, 0⟩⟩⟩).2) ∧
    Event.login ∈
      (mainRun ⟨some "zz", ⟨2024, 3, 15⟩, true, ⟨⟨[], none, 0⟩⟩, ⟨⟨[], none, 0⟩⟩⟩).2 :=
  c6_arg_failure_amended ⟨some "zz", ⟨2024, 3, 15⟩, true, ⟨⟨[], none, 0⟩⟩, ⟨⟨[], none, 0⟩⟩⟩
    rfl (by decide)

/-- C8: once the run reaches the export stage, a failing day export is
caught and logged and the process still exits 0; exit code 1 arises only
from a login failure. -/
theorem c8_export_isolation (env : MainEnv) (a : String) (m : Int)
    (hl : env.loginOk = true) (ha : env.argv1 = some a) (hm : pyInt a = some m) :
    (mainRun env).1 = Outcome.exit0 ∧
    (export_days_values env.resDay = none →
      Event.logMsg "days values non exported" ∈ (mainRun env).2) ∧
    (∀ env2 : MainEnv, (mainRun env2).1 = Outcome.exit1 → env2.loginOk = false) := by
  refine ⟨?_, ?_, ?_⟩
  · rw [mainRun_reached env a m hl ha hm]
  · intro hexp
    rw [mainRun_reached env a m hl ha hm, hexp]
    simp
  · intro env2 hrun
    cases h2 : env2.loginOk with
    | false => rfl
    | true =>
      exfalso
      obtain ⟨argv, today, lok, rm, rd⟩ := env2
      simp only at h2
      subst h2
      simp only [mainRun, if_true] at hrun
      cases argv with
      | none => cases hrun
      | some b =>
        dsimp only at hrun
        cases hb : pyInt b with
        | none =>
          rw [hb] at hrun
          cases hrun
        | some k =>
          rw [hb] at hrun
          dsimp only at hrun
          revert hrun
          cases export_days_values rd <;> intro hrun <;> cases hrun

/-- Witness for C8: a day response missing `dateDebut` is logged and the
process exits 0. -/
theorem c8_export_isolation_witness :
    (mainRun ⟨some "2", ⟨2024, 3, 15⟩, true, ⟨⟨[], none, 0⟩⟩, ⟨⟨[5], none, 0⟩⟩⟩).1 =
      Outcome.exit0 ∧
    Event.logMsg "days values non exported" ∈
      (mainRun ⟨some "2", ⟨2024, 3, 15⟩, true, ⟨⟨[], none, 0⟩⟩, ⟨⟨[5], none, 0⟩⟩⟩).2 := by
  have h := c8_export_isolation
    ⟨some "2", ⟨2024, 3, 15⟩, true, ⟨⟨[], none, 0⟩⟩, ⟨⟨[5], none, 0⟩⟩⟩ "2" 2
    rfl rfl (by decide)
  exact ⟨h.1, h.2.1 (by decide)⟩

end Linky
